import Mathlib

/-!
Verification development for the go-fred task runner.

Shallow embedding of the execution core: the `models.Task` entity and its
state-machine methods, the built-in executors (echo, sleep, error, math),
the `ExecutorRegistry`, and the `TaskManager` operations
(`CreateTask`, `GetTask`, `ExecuteTask`, `ExecuteTaskAsync`, `CancelTask`).

Modelling conventions:
- Go `interface{}` values restricted to the JSON-representable shapes the
  HTTP boundary can supply are embedded as the inductive `Value`; Go maps
  `map[string]interface{}` become association lists `ValMap` with unique keys
  and first-match lookup.
- Go numbers arriving through JSON are `float64`; they are embedded as `ℚ`
  (floating-point rounding is abstracted; every literal used in the claims is
  exactly representable).
- `uuid.New().String()` is embedded as a fresh natural-number token drawn from
  a counter held in the manager state, so task IDs are `ℕ`; the task store is
  keyed by that token exactly as the Go store is keyed by `task.ID`.
- Wall-clock readings (`time.Now()`) are nanosecond timestamps `ℕ` supplied as
  explicit arguments to each operation; `time.Duration` values are `ℤ`
  nanoseconds computed by subtraction just as `time.Time.Sub` does.
- Go errors are their message strings; every `fmt.Errorf` site is reproduced
  with its format string applied.
- The manager's goroutine interleavings are not shallowly embeddable; manager
  operations are embedded atomically (each synchronous execution sequence runs
  to completion inside its operation, and `ExecuteTaskAsync`'s background
  goroutine is scheduled to run immediately after its synchronous checks,
  with the background context, before the next manager operation).  The
  counting semaphore always has a free slot under this schedule and is elided.
- The event publisher is an arbitrary function `Event → Bool` reporting
  publish success; the manager calls it and discards the result, exactly as
  every `events.PublishTaskX(...)` call site in `executor.go` drops the
  returned error.
-/

namespace GoFred

/-- Dynamic values: the JSON-representable subset of Go `interface{}` that the
HTTP boundary can place into a task's `input` and that executors place into
`output`. -/
inductive Value where
  | str (s : String)
  | num (q : ℚ)
  | bool (b : Bool)
  | null
  | arr (l : List Value)
  | obj (m : List (String × Value))

/-- A Go `map[string]interface{}` as an association list with unique keys. -/
abbrev ValMap := List (String × Value)

/-- First-match association-list lookup, the embedding of Go map indexing
(`m[k]` yields the zero value, here `none`, when the key is absent). -/
def lookupVal : ValMap → String → Option Value
  | [], _ => none
  | (k', v) :: rest, k => if k' = k then some v else lookupVal rest k

/-- The `TaskStatus` string constants from `models/task.go`. -/
inductive TaskStatus where
  | pending
  | running
  | completed
  | failed
  | cancelled
deriving DecidableEq, Repr

/-- Rendering of a `TaskStatus` back to its Go string constant. -/
def TaskStatus.toGoString : TaskStatus → String
  | .pending => "pending"
  | .running => "running"
  | .completed => "completed"
  | .failed => "failed"
  | .cancelled => "cancelled"

/-- The `models.Task` record.  `output` is `none` when the Go map is nil;
`error` is the Go string field whose zero value `""` marks absence;
`startedAt`, `completedAt` embed the nil-able `*time.Time` pointers and
`duration` the nil-able `*time.Duration` pointer (nanoseconds). -/
structure Task where
  id : ℕ
  taskType : String
  status : TaskStatus
  input : ValMap
  output : Option ValMap
  error : String
  createdAt : ℕ
  startedAt : Option ℕ
  completedAt : Option ℕ
  duration : Option ℤ
  isAsync : Bool

/-- The `models.NewTask` constructor: fresh ID, `pending` status, creation
timestamp, everything else at its zero value. -/
def NewTask (id : ℕ) (taskType : String) (input : ValMap) (isAsync : Bool)
    (now : ℕ) : Task :=
  { id := id
    taskType := taskType
    status := .pending
    input := input
    output := none
    error := ""
    createdAt := now
    startedAt := none
    completedAt := none
    duration := none
    isAsync := isAsync }

/-- `Task.Start`: unconditionally moves to `running` and stamps `StartedAt`. -/
def Task.start (t : Task) (now : ℕ) : Task :=
  { t with status := .running, startedAt := some now }

/-- `Task.Complete`: unconditionally moves to `completed`, stamps
`CompletedAt`, stores the given output, and computes the duration only when
`StartedAt` is set. -/
def Task.complete (t : Task) (output : Option ValMap) (now : ℕ) : Task :=
  { t with
    status := .completed
    completedAt := some now
    output := output
    duration := match t.startedAt with
      | some s => some ((now : ℤ) - (s : ℤ))
      | none => t.duration }

/-- `Task.Fail`: unconditionally moves to `failed`, stamps `CompletedAt`,
stores the error message, and computes the duration only when `StartedAt` is
set. -/
def Task.fail (t : Task) (errMsg : String) (now : ℕ) : Task :=
  { t with
    status := .failed
    completedAt := some now
    error := errMsg
    duration := match t.startedAt with
      | some s => some ((now : ℤ) - (s : ℤ))
      | none => t.duration }

/-- `Task.Cancel`: unconditionally moves to `cancelled`, stamps `CompletedAt`,
and computes the duration only when `StartedAt` is set. -/
def Task.cancel (t : Task) (now : ℕ) : Task :=
  { t with
    status := .cancelled
    completedAt := some now
    duration := match t.startedAt with
      | some s => some ((now : ℤ) - (s : ℤ))
      | none => t.duration }

/-- `Task.IsFinished`: the three terminal statuses. -/
def Task.isFinished (t : Task) : Bool :=
  t.status = .completed || t.status = .failed || t.status = .cancelled

/-! ## Built-in executors (`executors.go`)

Each Go executor receives `(ctx, task)`, reads `task.Input`, either returns an
error or assigns `task.Output` and returns nil.  The embedding takes the input
map plus a flag saying whether the execution context's cancellation signal has
fired, and returns `Except String ValMap`: `.error msg` for the returned Go
error, `.ok out` for the assigned output map. -/

/-- `EchoExecutor.Execute`: sleeps 100 ms (timing elided), then outputs the
whole input under `echo` plus a fixed message; never fails, ignores the
context. -/
def EchoExecutor.execute (_ctxCancelled : Bool) (input : ValMap) :
    Except String ValMap :=
  .ok [("echo", Value.obj input), ("message", Value.str "Task executed successfully")]

/-- Go conversion `int64(f)` of a `float64`, as applied to a rational:
truncation toward zero.  `Int.div` is Go's `/` on integers (T-division), so
`num / den` in that convention is exactly the truncation of the fraction. -/
def goTruncToInt (q : ℚ) : ℤ :=
  Int.tdiv q.num (q.den : ℤ)

/-- Nanoseconds the sleep executor actually waits for a numeric `duration`
input `d`: `time.Duration(d) * time.Second` first truncates `d` to an `int64`
count of `time.Duration` units and then multiplies by `10^9`. -/
def sleepWaitNanos (d : ℚ) : ℤ :=
  goTruncToInt d * 1000000000

/-- Modelled from the spec: the suspension the **sleep** executor is specified
to perform — "suspends for that duration" where `duration` is "seconds, may be
fractional" — i.e. `d` seconds, which is `d * 10^9` nanoseconds. -/
def specSleepNanos (d : ℚ) : ℚ :=
  d * 1000000000

/-- `SleepExecutor.Execute`: requires a `float64` `duration` in the input,
else fails with `"duration must be a number"`; then waits (the wait length is
`sleepWaitNanos`, not part of the functional result) unless the context's
cancellation fires first, in which case it returns `ctx.Err()`; on success
outputs `slept_for_seconds` (the original number) and a fixed message. -/
def SleepExecutor.execute (ctxCancelled : Bool) (input : ValMap) :
    Except String ValMap :=
  match lookupVal input "duration" with
  | some (Value.num d) =>
    if ctxCancelled then
      .error "context canceled"
    else
      .ok [("slept_for_seconds", Value.num d),
           ("message", Value.str "Sleep completed successfully")]
  | _ => .error "duration must be a number"

/-- `ErrorExecutor.Execute`: always fails, with the string `message` from the
input when present and a string, else with the fixed default phrase. -/
def ErrorExecutor.execute (_ctxCancelled : Bool) (input : ValMap) :
    Except String ValMap :=
  match lookupVal input "message" with
  | some (Value.str m) => .error m
  | _ => .error "Task failed as requested"

/-- `MathExecutor.Execute`: validates `operation : string`, `a b : float64`,
dispatches on the operation with a zero-division guard, and on success outputs
the operands and the result. -/
def MathExecutor.execute (_ctxCancelled : Bool) (input : ValMap) :
    Except String ValMap :=
  match lookupVal input "operation" with
  | some (Value.str operation) =>
    match lookupVal input "a" with
    | some (Value.num a) =>
      match lookupVal input "b" with
      | some (Value.num b) =>
        if operation = "add" then
          .ok [("operation", Value.str operation), ("a", Value.num a),
               ("b", Value.num b), ("result", Value.num (a + b))]
        else if operation = "subtract" then
          .ok [("operation", Value.str operation), ("a", Value.num a),
               ("b", Value.num b), ("result", Value.num (a - b))]
        else if operation = "multiply" then
          .ok [("operation", Value.str operation), ("a", Value.num a),
               ("b", Value.num b), ("result", Value.num (a * b))]
        else if operation = "divide" then
          if b = 0 then .error "division by zero"
          else
            .ok [("operation", Value.str operation), ("a", Value.num a),
                 ("b", Value.num b), ("result", Value.num (a / b))]
        else .error ("unsupported operation: " ++ operation)
      | _ => .error "b must be a number"
    | _ => .error "a must be a number"
  | _ => .error "operation must be a string"

/-- The closed set of built-in executor implementations, used to instantiate
the registry's value type when running the manager. -/
inductive ExecKind where
  | echo
  | sleep
  | error
  | math
deriving DecidableEq, Repr

/-- Dispatch of `executor.Execute(ctx, task)` over the built-in executors. -/
def runExecutor : ExecKind → Bool → ValMap → Except String ValMap
  | .echo, c, input => EchoExecutor.execute c input
  | .sleep, c, input => SleepExecutor.execute c input
  | .error, c, input => ErrorExecutor.execute c input
  | .math, c, input => MathExecutor.execute c input

/-! ## Executor registry (`executor.go`)

`ExecutorRegistry` wraps `map[string]TaskExecutor`; the map is embedded as an
association list with unique keys, generic in the executor type exactly as the
Go map is generic over `TaskExecutor` implementations. -/

/-- The registry's underlying map from task-kind name to executor. -/
abbrev ExecutorRegistry (α : Type) := List (String × α)

/-- Go map indexing `r.executors[taskType]` (comma-ok form). -/
def ExecutorRegistry.find : ExecutorRegistry α → String → Option α
  | [], _ => none
  | (k', e) :: rest, k => if k' = k then some e else ExecutorRegistry.find rest k

/-- `ExecutorRegistry.Register`: map assignment `r.executors[taskType] = e`,
overwriting in place when the key exists, inserting otherwise. -/
def ExecutorRegistry.register : ExecutorRegistry α → String → α → ExecutorRegistry α
  | [], k, e => [(k, e)]
  | (k', e') :: rest, k, e =>
    if k' = k then (k, e) :: rest
    else (k', e') :: ExecutorRegistry.register rest k e

/-- `ExecutorRegistry.GetExecutor`: resolve or fail with the not-found
message. -/
def ExecutorRegistry.getExecutor (r : ExecutorRegistry α) (taskType : String) :
    Except String α :=
  match ExecutorRegistry.find r taskType with
  | some e => .ok e
  | none => .error ("no executor found for task type: " ++ taskType)

/-- `ExecutorRegistry.GetSupportedTypes`: the registered kind names. -/
def ExecutorRegistry.getSupportedTypes (r : ExecutorRegistry α) : List String :=
  r.map Prod.fst

/-- `RegisterDefaultExecutors` applied to `NewExecutorRegistry()`. -/
def defaultRegistry : ExecutorRegistry ExecKind :=
  ExecutorRegistry.register
    (ExecutorRegistry.register
      (ExecutorRegistry.register
        (ExecutorRegistry.register [] "echo" .echo) "sleep" .sleep)
      "error" .error)
    "math" .math

/-! ## Lifecycle events (`events` package)

An event's unique ID, timestamp and constant `"go-fred"` source tag carry no
information the manager ever branches on; the embedding keeps the event type
string and the data payload built by the `PublishTaskX` helpers. -/

/-- A lifecycle event as handed to `Publisher.Publish`. -/
structure Event where
  etype : String
  data : ValMap

/-- `events.PublishTaskCreated`'s event. -/
def taskCreatedEvent (taskID : ℕ) (taskType : String) (isAsync : Bool) : Event :=
  ⟨"task.created",
   [("task_id", Value.num taskID), ("task_type", Value.str taskType),
    ("is_async", Value.bool isAsync)]⟩

/-- `events.PublishTaskStarted`'s event. -/
def taskStartedEvent (taskID : ℕ) : Event :=
  ⟨"task.started", [("task_id", Value.num taskID)]⟩

/-- `events.PublishTaskCompleted`'s event; `durationNanos` is the elapsed
`time.Duration`, whose `Milliseconds()` is T-division by `10^6`. -/
def taskCompletedEvent (taskID : ℕ) (durationNanos : ℤ) (result : Option ValMap) :
    Event :=
  ⟨"task.completed",
   [("task_id", Value.num taskID),
    ("duration_ms", Value.num (Int.tdiv durationNanos 1000000)),
    ("result", match result with | some m => Value.obj m | none => Value.null)]⟩

/-- `events.PublishTaskFailed`'s event. -/
def taskFailedEvent (taskID : ℕ) (durationNanos : ℤ) (errMsg : String) : Event :=
  ⟨"task.failed",
   [("task_id", Value.num taskID),
    ("duration_ms", Value.num (Int.tdiv durationNanos 1000000)),
    ("error", Value.str errMsg)]⟩

/-- `events.PublishTaskCancelled`'s event. -/
def taskCancelledEvent (taskID : ℕ) : Event :=
  ⟨"task.cancelled", [("task_id", Value.num taskID)]⟩

/-- An event publisher: reports whether `Publish` succeeded.  The manager
records the event it handed over and discards the success report, mirroring
the dropped return values at every publish call site in `executor.go`. -/
abbrev Publisher := Event → Bool

/-- Hand an event to the publisher: the log of published events grows and the
publisher's verdict is produced (to be discarded by the caller). -/
def publishEvent (pub : Publisher) (e : Event) (log : List Event) :
    List Event × Bool :=
  (log ++ [e], pub e)

/-! ## Task manager (`executor.go`) -/

/-- The manager's mutable state: the task store keyed by the ID token, the
fresh-token counter standing in for the uuid generator, and the log of all
events handed to the publisher. -/
structure MState where
  tasks : List (ℕ × Task)
  nextId : ℕ
  eventLog : List Event

/-- The state of `NewTaskManager`: empty store, no events. -/
def initState : MState :=
  ⟨[], 0, []⟩

/-- Store lookup `tm.tasks[taskID]` (comma-ok form). -/
def lookupTask : List (ℕ × Task) → ℕ → Option Task
  | [], _ => none
  | (k', t) :: rest, k => if k' = k then some t else lookupTask rest k

/-- Store assignment `tm.tasks[id] = task` / in-place mutation of the stored
`*models.Task`: overwrite when the key exists, insert otherwise. -/
def setTask : List (ℕ × Task) → ℕ → Task → List (ℕ × Task)
  | [], k, t => [(k, t)]
  | (k', t') :: rest, k, t =>
    if k' = k then (k, t) :: rest
    else (k', t') :: setTask rest k t

/-- `TaskManager.CreateTask`: resolve the kind (fail with the registry's
not-found error, leaving the state untouched), construct a pending task with a
fresh ID, store it, publish `task.created` discarding the publish verdict, and
return the task. -/
def CreateTask (reg : ExecutorRegistry ExecKind) (pub : Publisher) (s : MState)
    (taskType : String) (input : ValMap) (isAsync : Bool) (now : ℕ) :
    Except String Task × MState :=
  match ExecutorRegistry.getExecutor reg taskType with
  | .error e => (.error e, s)
  | .ok _ =>
    let task := NewTask s.nextId taskType input isAsync now
    let (log', _pubOk) :=
      publishEvent pub (taskCreatedEvent task.id taskType isAsync) s.eventLog
    (.ok task,
     { tasks := setTask s.tasks task.id task
       nextId := s.nextId + 1
       eventLog := log' })

/-- `TaskManager.GetTask`: store lookup or the not-found error. -/
def GetTask (s : MState) (taskID : ℕ) : Except String Task :=
  match lookupTask s.tasks taskID with
  | some t => .ok t
  | none => .error ("task not found: " ++ Nat.repr taskID)

/-- `executeTaskInternal`: start the task (publishing `task.started`), resolve
its executor (failing the task on an unknown type), run the executor, and
either fail or complete the task, publishing the matching event; the executor's
verdict is returned to the caller.  `tStart` is the `time.Now()` at entry and
`tEnd` the `time.Now()` at the terminal transition. -/
def executeTaskInternal (reg : ExecutorRegistry ExecKind) (pub : Publisher)
    (s : MState) (t : Task) (ctxCancelled : Bool) (tStart tEnd : ℕ) :
    Except String Unit × MState :=
  let t1 := t.start tStart
  let s1 : MState := { s with tasks := setTask s.tasks t1.id t1 }
  let (log1, _pubOk1) := publishEvent pub (taskStartedEvent t1.id) s1.eventLog
  let s1 : MState := { s1 with eventLog := log1 }
  match ExecutorRegistry.getExecutor reg t1.taskType with
  | .error e =>
    let t2 := t1.fail e tEnd
    let (log2, _pubOk2) :=
      publishEvent pub (taskFailedEvent t2.id ((tEnd : ℤ) - (tStart : ℤ)) e)
        s1.eventLog
    (.error e,
     { s1 with tasks := setTask s1.tasks t2.id t2, eventLog := log2 })
  | .ok ex =>
    match runExecutor ex ctxCancelled t1.input with
    | .error msg =>
      let t2 := t1.fail msg tEnd
      let (log2, _pubOk2) :=
        publishEvent pub (taskFailedEvent t2.id ((tEnd : ℤ) - (tStart : ℤ)) msg)
          s1.eventLog
      (.error msg,
       { s1 with tasks := setTask s1.tasks t2.id t2, eventLog := log2 })
    | .ok out =>
      let t2 := Task.complete { t1 with output := some out } (some out) tEnd
      let (log2, _pubOk2) :=
        publishEvent pub
          (taskCompletedEvent t2.id ((tEnd : ℤ) - (tStart : ℤ)) (some out))
          s1.eventLog
      (.ok (),
       { s1 with tasks := setTask s1.tasks t2.id t2, eventLog := log2 })

/-- The already-finished error message of `executor.go`. -/
def alreadyFinishedMsg (taskID : ℕ) : String :=
  "task " ++ Nat.repr taskID ++ " is already finished"

/-- `TaskManager.ExecuteTask`: existence and terminal checks, then the
execution sequence run synchronously.  Admission always succeeds under the
atomic schedule, so the semaphore wait (and its cancellable select) is elided;
the caller's context reaches the executor. -/
def ExecuteTask (reg : ExecutorRegistry ExecKind) (pub : Publisher) (s : MState)
    (taskID : ℕ) (ctxCancelled : Bool) (tStart tEnd : ℕ) :
    Except String Unit × MState :=
  match GetTask s taskID with
  | .error e => (.error e, s)
  | .ok t =>
    if t.isFinished then (.error (alreadyFinishedMsg taskID), s)
    else executeTaskInternal reg pub s t ctxCancelled tStart tEnd

/-- `TaskManager.ExecuteTaskAsync`: the same synchronous checks, then the
execution sequence scheduled in the background with `context.Background()`;
the caller gets nil immediately and never sees the execution's verdict.  Under
the atomic schedule the background run happens before the next operation. -/
def ExecuteTaskAsync (reg : ExecutorRegistry ExecKind) (pub : Publisher)
    (s : MState) (taskID : ℕ) (tStart tEnd : ℕ) :
    Except String Unit × MState :=
  match GetTask s taskID with
  | .error e => (.error e, s)
  | .ok t =>
    if t.isFinished then (.error (alreadyFinishedMsg taskID), s)
    else
      let (_bgResult, s') := executeTaskInternal reg pub s t false tStart tEnd
      (.ok (), s')

/-- `TaskManager.CancelTask`: existence and terminal checks, then the
unconditional `Task.Cancel` transition and the `task.cancelled` event. -/
def CancelTask (pub : Publisher) (s : MState) (taskID : ℕ) (now : ℕ) :
    Except String Unit × MState :=
  match GetTask s taskID with
  | .error e => (.error e, s)
  | .ok t =>
    if t.isFinished then (.error (alreadyFinishedMsg taskID), s)
    else
      let t1 := t.cancel now
      let (log', _pubOk) :=
        publishEvent pub (taskCancelledEvent taskID) s.eventLog
      (.ok (),
       { s with tasks := setTask s.tasks t1.id t1, eventLog := log' })

/-! ## Manager operation sequences -/

/-- One manager operation together with the wall-clock readings it observes. -/
inductive Op where
  | create (taskType : String) (input : ValMap) (isAsync : Bool) (now : ℕ)
  | exec (taskID : ℕ) (ctxCancelled : Bool) (tStart tEnd : ℕ)
  | execAsync (taskID : ℕ) (tStart tEnd : ℕ)
  | cancel (taskID : ℕ) (now : ℕ)

/-- Apply one operation to the manager state, discarding the value returned to
the caller. -/
def step (reg : ExecutorRegistry ExecKind) (pub : Publisher) (s : MState) :
    Op → MState
  | .create taskType input isAsync now =>
    (CreateTask reg pub s taskType input isAsync now).2
  | .exec taskID c tStart tEnd =>
    (ExecuteTask reg pub s taskID c tStart tEnd).2
  | .execAsync taskID tStart tEnd =>
    (ExecuteTaskAsync reg pub s taskID tStart tEnd).2
  | .cancel taskID now =>
    (CancelTask pub s taskID now).2

/-- Run a sequence of manager operations. -/
def run (reg : ExecutorRegistry ExecKind) (pub : Publisher) (s : MState) :
    List Op → MState
  | [] => s
  | op :: ops => run reg pub (step reg pub s op) ops

/-- Wall-clock sanity of a single operation: within one execution sequence the
second `time.Now()` reading is not earlier than the first (Go's monotonic
clock guarantees this). -/
def wfOp : Op → Bool
  | .exec _ _ tStart tEnd => decide (tStart ≤ tEnd)
  | .execAsync _ tStart tEnd => decide (tStart ≤ tEnd)
  | _ => true

/-- Wall-clock sanity of a whole operation sequence. -/
def wfOps (ops : List Op) : Bool :=
  ops.all wfOp

/-! ## Association-list lemmas for the registry and the task store -/

theorem find_register_self (r : ExecutorRegistry α) (k : String) (e : α) :
    ExecutorRegistry.find (ExecutorRegistry.register r k e) k = some e := by
  induction r with
  | nil => simp [ExecutorRegistry.register, ExecutorRegistry.find]
  | cons hd tl ih =>
    obtain ⟨a, b⟩ := hd
    by_cases h : a = k <;>
      simp [ExecutorRegistry.register, ExecutorRegistry.find, h, ih]

theorem find_register_ne (r : ExecutorRegistry α) (k k' : String) (e : α)
    (hne : k' ≠ k) :
    ExecutorRegistry.find (ExecutorRegistry.register r k e) k' =
      ExecutorRegistry.find r k' := by
  induction r with
  | nil => simp [ExecutorRegistry.register, ExecutorRegistry.find, Ne.symm hne]
  | cons hd tl ih =>
    obtain ⟨a, b⟩ := hd
    by_cases h : a = k
    · simp [ExecutorRegistry.register, ExecutorRegistry.find, h, Ne.symm hne]
    · by_cases h' : a = k' <;>
        simp [ExecutorRegistry.register, ExecutorRegistry.find, h, h', hne, ih]

theorem find_eq_none_iff (r : ExecutorRegistry α) (k : String) :
    ExecutorRegistry.find r k = none ↔
      k ∉ ExecutorRegistry.getSupportedTypes r := by
  induction r with
  | nil => simp [ExecutorRegistry.find, ExecutorRegistry.getSupportedTypes]
  | cons hd tl ih =>
    obtain ⟨a, b⟩ := hd
    by_cases h : a = k
    · subst h
      simp [ExecutorRegistry.find, ExecutorRegistry.getSupportedTypes]
    · have hka : ¬k = a := fun hh => h hh.symm
      simp [ExecutorRegistry.find, ExecutorRegistry.getSupportedTypes, h, hka, ih]

theorem mem_keys_register (r : ExecutorRegistry α) (k k'' : String) (e : α) :
    k'' ∈ ExecutorRegistry.getSupportedTypes (ExecutorRegistry.register r k e) ↔
      (k'' = k ∨ k'' ∈ ExecutorRegistry.getSupportedTypes r) := by
  induction r with
  | nil => simp [ExecutorRegistry.register, ExecutorRegistry.getSupportedTypes]
  | cons hd tl ih =>
    obtain ⟨a, b⟩ := hd
    by_cases h : a = k
    · subst h
      have hreg : ExecutorRegistry.register ((a, b) :: tl) a e = (a, e) :: tl := by
        simp [ExecutorRegistry.register]
      rw [hreg]
      simp only [ExecutorRegistry.getSupportedTypes, List.map_cons, List.mem_cons]
      tauto
    · simp only [ExecutorRegistry.register, ExecutorRegistry.getSupportedTypes,
        if_neg h, List.map_cons, List.mem_cons] at ih ⊢
      rw [ih]
      tauto

theorem lookup_setTask_self (l : List (ℕ × Task)) (k : ℕ) (t : Task) :
    lookupTask (setTask l k t) k = some t := by
  induction l with
  | nil => simp [setTask, lookupTask]
  | cons hd tl ih =>
    obtain ⟨a, b⟩ := hd
    by_cases h : a = k <;> simp [setTask, lookupTask, h, ih]

theorem lookup_setTask_ne (l : List (ℕ × Task)) (k k' : ℕ) (t : Task)
    (hne : k' ≠ k) :
    lookupTask (setTask l k t) k' = lookupTask l k' := by
  induction l with
  | nil => simp [setTask, lookupTask, Ne.symm hne]
  | cons hd tl ih =>
    obtain ⟨a, b⟩ := hd
    by_cases h : a = k
    · simp [setTask, lookupTask, h, Ne.symm hne]
    · by_cases h' : a = k' <;> simp [setTask, lookupTask, h, h', hne, ih]

theorem mem_setTask (l : List (ℕ × Task)) (k : ℕ) (t : Task)
    (p : ℕ × Task) (hp : p ∈ setTask l k t) : p = (k, t) ∨ p ∈ l := by
  induction l with
  | nil => simpa [setTask] using hp
  | cons hd tl ih =>
    obtain ⟨a, b⟩ := hd
    by_cases h : a = k
    · simp [setTask, h] at hp
      rcases hp with h1 | h2
      · left
        simp [h1]
      · exact Or.inr (List.mem_cons_of_mem _ h2)
    · simp [setTask, h] at hp
      rcases hp with h1 | h2
      · right
        simp [h1]
      · rcases ih h2 with h3 | h4
        · exact Or.inl h3
        · exact Or.inr (List.mem_cons_of_mem _ h4)

theorem lookupTask_mem (l : List (ℕ × Task)) (k : ℕ) (t : Task)
    (h : lookupTask l k = some t) : (k, t) ∈ l := by
  induction l with
  | nil => simp [lookupTask] at h
  | cons hd tl ih =>
    obtain ⟨a, b⟩ := hd
    by_cases hk : a = k
    · simp [lookupTask, hk] at h
      subst hk
      simp [h]
    · simp [lookupTask, hk] at h
      exact List.mem_cons_of_mem _ (ih h)

theorem setTask_setTask (l : List (ℕ × Task)) (k : ℕ) (a b : Task) :
    setTask (setTask l k a) k b = setTask l k b := by
  induction l with
  | nil => simp [setTask]
  | cons hd tl ih =>
    obtain ⟨x, y⟩ := hd
    by_cases h : x = k <;> simp [setTask, h, ih]

/-! ## Characterisation of one execution sequence -/

/-- The task record produced by one run of `executeTaskInternal` on `t`,
by the three branches of the sequence (executor missing, executor failure,
executor success). -/
def internalTask (reg : ExecutorRegistry ExecKind) (t : Task) (c : Bool)
    (tStart tEnd : ℕ) : Task :=
  let t1 := t.start tStart
  match ExecutorRegistry.getExecutor reg t.taskType with
  | .error e => t1.fail e tEnd
  | .ok ex =>
    match runExecutor ex c t.input with
    | .error msg => t1.fail msg tEnd
    | .ok out => Task.complete { t1 with output := some out } (some out) tEnd

theorem executeTaskInternal_tasks (reg : ExecutorRegistry ExecKind)
    (pub : Publisher) (s : MState) (t : Task) (c : Bool) (tStart tEnd : ℕ) :
    (executeTaskInternal reg pub s t c tStart tEnd).2.tasks =
      setTask s.tasks t.id (internalTask reg t c tStart tEnd) := by
  unfold executeTaskInternal internalTask
  cases hE : ExecutorRegistry.getExecutor reg t.taskType with
  | error e => simp [Task.start, hE, publishEvent, Task.fail, setTask_setTask]
  | ok ex =>
    cases hR : runExecutor ex c t.input with
    | error msg => simp [Task.start, hE, hR, publishEvent, Task.fail, setTask_setTask]
    | ok out => simp [Task.start, hE, hR, publishEvent, Task.complete, setTask_setTask]

theorem executeTaskInternal_nextId (reg : ExecutorRegistry ExecKind)
    (pub : Publisher) (s : MState) (t : Task) (c : Bool) (tStart tEnd : ℕ) :
    (executeTaskInternal reg pub s t c tStart tEnd).2.nextId = s.nextId := by
  unfold executeTaskInternal
  cases hE : ExecutorRegistry.getExecutor reg t.taskType with
  | error e => simp [Task.start, hE, publishEvent]
  | ok ex =>
    cases hR : runExecutor ex c t.input with
    | error msg => simp [Task.start, hE, hR, publishEvent]
    | ok out => simp [Task.start, hE, hR, publishEvent]

theorem internalTask_id (reg : ExecutorRegistry ExecKind) (t : Task) (c : Bool)
    (tStart tEnd : ℕ) : (internalTask reg t c tStart tEnd).id = t.id := by
  unfold internalTask
  cases hE : ExecutorRegistry.getExecutor reg t.taskType with
  | error e => simp [Task.start, Task.fail, hE]
  | ok ex =>
    cases hR : runExecutor ex c t.input with
    | error msg => simp [Task.start, Task.fail, hE, hR]
    | ok out => simp [Task.start, Task.complete, hE, hR]

/-! ## Reachable task shapes

Under the atomic schedule every stored task is in one of four shapes: freshly
created (`pending`), completed or failed by an execution sequence that started
it, or cancelled while still pending. -/

/-- Shape of every task record reachable through manager operations. -/
def TaskShape (t : Task) : Prop :=
  (t.status = .pending ∧ t.output = none ∧ t.error = "" ∧ t.startedAt = none ∧
     t.completedAt = none ∧ t.duration = none)
  ∨ (t.status = .completed ∧ t.output.isSome = true ∧ t.error = "" ∧
     ∃ a b : ℕ, a ≤ b ∧ t.startedAt = some a ∧ t.completedAt = some b ∧
       t.duration = some ((b : ℤ) - (a : ℤ)))
  ∨ (t.status = .failed ∧ t.output = none ∧
     ∃ a b : ℕ, a ≤ b ∧ t.startedAt = some a ∧ t.completedAt = some b ∧
       t.duration = some ((b : ℤ) - (a : ℤ)))
  ∨ (t.status = .cancelled ∧ t.output = none ∧ t.error = "" ∧
     t.startedAt = none ∧ (∃ b : ℕ, t.completedAt = some b) ∧ t.duration = none)

theorem shape_not_finished (t : Task) (hs : TaskShape t)
    (hf : t.isFinished = false) :
    t.status = .pending ∧ t.output = none ∧ t.error = "" ∧ t.startedAt = none ∧
      t.completedAt = none ∧ t.duration = none := by
  rcases hs with ⟨h1, h2, h3, h4, h5, h6⟩ | ⟨h1, _⟩ | ⟨h1, _⟩ | ⟨h1, _⟩
  · exact ⟨h1, h2, h3, h4, h5, h6⟩
  all_goals simp [Task.isFinished, h1] at hf

theorem internalTask_shape (reg : ExecutorRegistry ExecKind) (t : Task)
    (c : Bool) (tStart tEnd : ℕ) (hab : tStart ≤ tEnd) (hs : TaskShape t)
    (hf : t.isFinished = false) :
    TaskShape (internalTask reg t c tStart tEnd) := by
  obtain ⟨-, hout, herr, -, -, -⟩ := shape_not_finished t hs hf
  unfold internalTask
  cases hE : ExecutorRegistry.getExecutor reg t.taskType with
  | error e =>
    refine Or.inr (Or.inr (Or.inl ?_))
    simp only [hE]
    exact ⟨rfl, hout, tStart, tEnd, hab, rfl, rfl, rfl⟩
  | ok ex =>
    cases hR : runExecutor ex c t.input with
    | error msg =>
      refine Or.inr (Or.inr (Or.inl ?_))
      simp only [hE, hR]
      exact ⟨rfl, hout, tStart, tEnd, hab, rfl, rfl, rfl⟩
    | ok out =>
      refine Or.inr (Or.inl ?_)
      simp only [hE, hR]
      exact ⟨rfl, rfl, herr, tStart, tEnd, hab, rfl, rfl, rfl⟩

/-! ## Store invariants and their preservation -/

/-- Bookkeeping invariant of the store: every key was drawn from the fresh-ID
counter and every record carries its own key as its ID. -/
def StoreWf (s : MState) : Prop :=
  ∀ p ∈ s.tasks, p.1 < s.nextId ∧ p.2.id = p.1

/-- Every stored record has a reachable shape. -/
def ShapeInv (s : MState) : Prop :=
  ∀ p ∈ s.tasks, TaskShape p.2

theorem initState_storeWf : StoreWf initState := by
  intro p hp
  simp [initState] at hp

theorem initState_shapeInv : ShapeInv initState := by
  intro p hp
  simp [initState] at hp

theorem step_storeWf (reg : ExecutorRegistry ExecKind) (pub : Publisher)
    (s : MState) (op : Op) (hWf : StoreWf s) : StoreWf (step reg pub s op) := by
  cases op with
  | create ty input a now =>
    cases hE : ExecutorRegistry.getExecutor reg ty with
    | error e => simpa [step, CreateTask, hE] using hWf
    | ok e0 =>
      intro p hp
      simp only [step, CreateTask, hE, publishEvent, NewTask] at hp ⊢
      rcases mem_setTask _ _ _ _ hp with h1 | h2
      · subst h1
        exact ⟨Nat.lt_succ_self _, rfl⟩
      · exact ⟨Nat.lt_succ_of_lt (hWf p h2).1, (hWf p h2).2⟩
  | exec id c tS tE =>
    cases hL : lookupTask s.tasks id with
    | none => simpa [step, ExecuteTask, GetTask, hL] using hWf
    | some t =>
      cases hFt : t.isFinished with
      | true => simpa [step, ExecuteTask, GetTask, hL, hFt] using hWf
      | false =>
        have hmem := hWf _ (lookupTask_mem _ _ _ hL)
        intro p hp
        simp only [step, ExecuteTask, GetTask, hL, hFt, Bool.false_eq_true,
          if_false, executeTaskInternal_tasks] at hp
        simp only [step, ExecuteTask, GetTask, hL, hFt, Bool.false_eq_true,
          if_false, executeTaskInternal_nextId]
        rcases mem_setTask _ _ _ _ hp with h1 | h2
        · subst h1
          exact ⟨hmem.2 ▸ hmem.1, internalTask_id _ _ _ _ _⟩
        · exact hWf p h2
  | execAsync id tS tE =>
    cases hL : lookupTask s.tasks id with
    | none => simpa [step, ExecuteTaskAsync, GetTask, hL] using hWf
    | some t =>
      cases hFt : t.isFinished with
      | true => simpa [step, ExecuteTaskAsync, GetTask, hL, hFt] using hWf
      | false =>
        have hmem := hWf _ (lookupTask_mem _ _ _ hL)
        intro p hp
        simp only [step, ExecuteTaskAsync, GetTask, hL, hFt, Bool.false_eq_true,
          if_false, executeTaskInternal_tasks] at hp
        simp only [step, ExecuteTaskAsync, GetTask, hL, hFt, Bool.false_eq_true,
          if_false, executeTaskInternal_nextId]
        rcases mem_setTask _ _ _ _ hp with h1 | h2
        · subst h1
          exact ⟨hmem.2 ▸ hmem.1, internalTask_id _ _ _ _ _⟩
        · exact hWf p h2
  | cancel id now =>
    cases hL : lookupTask s.tasks id with
    | none => simpa [step, CancelTask, GetTask, hL] using hWf
    | some t =>
      cases hFt : t.isFinished with
      | true => simpa [step, CancelTask, GetTask, hL, hFt] using hWf
      | false =>
        have hmem := hWf _ (lookupTask_mem _ _ _ hL)
        intro p hp
        simp only [step, CancelTask, GetTask, hL, hFt, Bool.false_eq_true,
          if_false, publishEvent] at hp ⊢
        rcases mem_setTask _ _ _ _ hp with h1 | h2
        · subst h1
          have hid : t.id < s.nextId := by
            rw [hmem.2]
            exact hmem.1
          exact ⟨hid, rfl⟩
        · exact hWf p h2

theorem step_frozen (reg : ExecutorRegistry ExecKind) (pub : Publisher)
    (s : MState) (op : Op) (k : ℕ) (tk : Task) (hWf : StoreWf s)
    (hL : lookupTask s.tasks k = some tk) (hF : tk.isFinished = true) :
    lookupTask (step reg pub s op).tasks k = some tk := by
  cases op with
  | create ty input a now =>
    cases hE : ExecutorRegistry.getExecutor reg ty with
    | error e => simpa [step, CreateTask, hE] using hL
    | ok e0 =>
      have hk : k < s.nextId := (hWf _ (lookupTask_mem _ _ _ hL)).1
      simp only [step, CreateTask, hE, publishEvent, NewTask]
      rw [lookup_setTask_ne _ _ _ _ (Nat.ne_of_lt hk)]
      exact hL
  | exec id c tS tE =>
    cases hL' : lookupTask s.tasks id with
    | none => simpa [step, ExecuteTask, GetTask, hL'] using hL
    | some t =>
      cases hFt : t.isFinished with
      | true => simpa [step, ExecuteTask, GetTask, hL', hFt] using hL
      | false =>
        have hne : k ≠ t.id := by
          intro hkt
          have hid := (hWf _ (lookupTask_mem _ _ _ hL')).2
          rw [hkt, hid] at hL
          rw [hL'] at hL
          cases hL
          rw [hFt] at hF
          cases hF
        simp only [step, ExecuteTask, GetTask, hL', hFt, Bool.false_eq_true,
          if_false, executeTaskInternal_tasks]
        rw [lookup_setTask_ne _ _ _ _ hne]
        exact hL
  | execAsync id tS tE =>
    cases hL' : lookupTask s.tasks id with
    | none => simpa [step, ExecuteTaskAsync, GetTask, hL'] using hL
    | some t =>
      cases hFt : t.isFinished with
      | true => simpa [step, ExecuteTaskAsync, GetTask, hL', hFt] using hL
      | false =>
        have hne : k ≠ t.id := by
          intro hkt
          have hid := (hWf _ (lookupTask_mem _ _ _ hL')).2
          rw [hkt, hid] at hL
          rw [hL'] at hL
          cases hL
          rw [hFt] at hF
          cases hF
        simp only [step, ExecuteTaskAsync, GetTask, hL', hFt, Bool.false_eq_true,
          if_false, executeTaskInternal_tasks]
        rw [lookup_setTask_ne _ _ _ _ hne]
        exact hL
  | cancel id now =>
    cases hL' : lookupTask s.tasks id with
    | none => simpa [step, CancelTask, GetTask, hL'] using hL
    | some t =>
      cases hFt : t.isFinished with
      | true => simpa [step, CancelTask, GetTask, hL', hFt] using hL
      | false =>
        have hne : k ≠ t.id := by
          intro hkt
          have hid := (hWf _ (lookupTask_mem _ _ _ hL')).2
          rw [hkt, hid] at hL
          rw [hL'] at hL
          cases hL
          rw [hFt] at hF
          cases hF
        simp only [step, CancelTask, GetTask, hL', hFt, Bool.false_eq_true,
          if_false, publishEvent]
        show lookupTask (setTask s.tasks t.id (t.cancel now)) k = some tk
        rw [lookup_setTask_ne _ _ _ _ hne]
        exact hL

theorem step_shapeInv (reg : ExecutorRegistry ExecKind) (pub : Publisher)
    (s : MState) (op : Op) (hSh : ShapeInv s) (hop : wfOp op = true) :
    ShapeInv (step reg pub s op) := by
  cases op with
  | create ty input a now =>
    cases hE : ExecutorRegistry.getExecutor reg ty with
    | error e => simpa [step, CreateTask, hE] using hSh
    | ok e0 =>
      intro p hp
      simp only [step, CreateTask, hE, publishEvent, NewTask] at hp
      rcases mem_setTask _ _ _ _ hp with h1 | h2
      · subst h1
        exact Or.inl ⟨rfl, rfl, rfl, rfl, rfl, rfl⟩
      · exact hSh p h2
  | exec id c tS tE =>
    cases hL : lookupTask s.tasks id with
    | none => simpa [step, ExecuteTask, GetTask, hL] using hSh
    | some t =>
      cases hFt : t.isFinished with
      | true => simpa [step, ExecuteTask, GetTask, hL, hFt] using hSh
      | false =>
        have hab : tS ≤ tE := by simpa [wfOp] using hop
        have hts := hSh _ (lookupTask_mem _ _ _ hL)
        intro p hp
        simp only [step, ExecuteTask, GetTask, hL, hFt, Bool.false_eq_true,
          if_false, executeTaskInternal_tasks] at hp
        rcases mem_setTask _ _ _ _ hp with h1 | h2
        · subst h1
          exact internalTask_shape reg t c tS tE hab hts hFt
        · exact hSh p h2
  | execAsync id tS tE =>
    cases hL : lookupTask s.tasks id with
    | none => simpa [step, ExecuteTaskAsync, GetTask, hL] using hSh
    | some t =>
      cases hFt : t.isFinished with
      | true => simpa [step, ExecuteTaskAsync, GetTask, hL, hFt] using hSh
      | false =>
        have hab : tS ≤ tE := by simpa [wfOp] using hop
        have hts := hSh _ (lookupTask_mem _ _ _ hL)
        intro p hp
        simp only [step, ExecuteTaskAsync, GetTask, hL, hFt, Bool.false_eq_true,
          if_false, executeTaskInternal_tasks] at hp
        rcases mem_setTask _ _ _ _ hp with h1 | h2
        · subst h1
          exact internalTask_shape reg t false tS tE hab hts hFt
        · exact hSh p h2
  | cancel id now =>
    cases hL : lookupTask s.tasks id with
    | none => simpa [step, CancelTask, GetTask, hL] using hSh
    | some t =>
      cases hFt : t.isFinished with
      | true => simpa [step, CancelTask, GetTask, hL, hFt] using hSh
      | false =>
        have hts := hSh _ (lookupTask_mem _ _ _ hL)
        obtain ⟨-, hout, herr, hstart, -, hdur⟩ :=
          shape_not_finished t hts hFt
        intro p hp
        simp only [step, CancelTask, GetTask, hL, hFt, Bool.false_eq_true,
          if_false, publishEvent] at hp
        rcases mem_setTask _ _ _ _ hp with h1 | h2
        · subst h1
          refine Or.inr (Or.inr (Or.inr ⟨rfl, hout, herr, hstart, ⟨now, rfl⟩, ?_⟩))
          simp [Task.cancel, hstart, hdur]
        · exact hSh p h2

/-! ## Invariants over whole operation sequences -/

theorem run_append (reg : ExecutorRegistry ExecKind) (pub : Publisher)
    (s : MState) (l1 l2 : List Op) :
    run reg pub s (l1 ++ l2) = run reg pub (run reg pub s l1) l2 := by
  induction l1 generalizing s with
  | nil => simp [run]
  | cons hd tl ih => simp [run, ih]

theorem run_storeWf (reg : ExecutorRegistry ExecKind) (pub : Publisher)
    (s : MState) (ops : List Op) (hWf : StoreWf s) :
    StoreWf (run reg pub s ops) := by
  induction ops generalizing s with
  | nil => simpa [run] using hWf
  | cons hd tl ih => exact ih _ (step_storeWf reg pub s hd hWf)

theorem run_frozen (reg : ExecutorRegistry ExecKind) (pub : Publisher)
    (s : MState) (ops : List Op) (k : ℕ) (tk : Task) (hWf : StoreWf s)
    (hL : lookupTask s.tasks k = some tk) (hF : tk.isFinished = true) :
    lookupTask (run reg pub s ops).tasks k = some tk := by
  induction ops generalizing s with
  | nil => simpa [run] using hL
  | cons hd tl ih =>
    exact ih _ (step_storeWf reg pub s hd hWf)
      (step_frozen reg pub s hd k tk hWf hL hF)

theorem run_shapeInv (reg : ExecutorRegistry ExecKind) (pub : Publisher)
    (s : MState) (ops : List Op) (hSh : ShapeInv s)
    (hops : wfOps ops = true) : ShapeInv (run reg pub s ops) := by
  induction ops generalizing s with
  | nil => simpa [run] using hSh
  | cons hd tl ih =>
    rw [wfOps, List.all_cons, Bool.and_eq_true] at hops
    exact ih _ (step_shapeInv reg pub s hd hSh hops.1) hops.2

end GoFred

namespace GoFred

/-! ## Claim theorems -/

/-- C9: for every registry state, kind name, and executor `e`, registering
`(kind, e)` makes resolution of `kind` return `e` (overwriting any earlier
registration, last write wins); resolution fails with the not-found error
exactly when the kind is unregistered; and the supported-types listing holds
exactly the registered kind names (registration adds the new kind to it). -/
theorem registry_register_resolve_contract (α : Type) (r : ExecutorRegistry α)
    (k k' k'' : String) (e : α) :
    ExecutorRegistry.getExecutor (ExecutorRegistry.register r k e) k = .ok e ∧
    (k' ≠ k → ExecutorRegistry.getExecutor (ExecutorRegistry.register r k e) k' =
      ExecutorRegistry.getExecutor r k') ∧
    (ExecutorRegistry.getExecutor r k'' =
        .error ("no executor found for task type: " ++ k'') ↔
      k'' ∉ ExecutorRegistry.getSupportedTypes r) ∧
    (k'' ∈ ExecutorRegistry.getSupportedTypes (ExecutorRegistry.register r k e) ↔
      (k'' = k ∨ k'' ∈ ExecutorRegistry.getSupportedTypes r)) := by
  refine ⟨?_, ?_, ?_, mem_keys_register r k k'' e⟩
  · simp [ExecutorRegistry.getExecutor, find_register_self]
  · intro hne
    simp [ExecutorRegistry.getExecutor, find_register_ne r k k' e hne]
  · constructor
    · intro h
      rw [← find_eq_none_iff]
      cases hf : ExecutorRegistry.find r k'' with
      | none => rfl
      | some e0 => simp [ExecutorRegistry.getExecutor, hf] at h
    · intro h
      rw [← find_eq_none_iff] at h
      simp [ExecutorRegistry.getExecutor, h]

/-- Witness for C9 at a concrete registry over `ℕ` tokens. -/
theorem registry_register_resolve_contract_witness :
    ExecutorRegistry.getExecutor
        (ExecutorRegistry.register [("a", 1)] "b" 2) "b" = .ok 2 ∧
    ExecutorRegistry.getExecutor
        (ExecutorRegistry.register [("a", 1)] "b" 2) "a" =
      ExecutorRegistry.getExecutor [("a", 1)] "a" ∧
    "c" ∉ ExecutorRegistry.getSupportedTypes ([("a", 1)] : ExecutorRegistry ℕ) :=
  have h := registry_register_resolve_contract ℕ [("a", 1)] "b" "a" "c" 2
  ⟨h.1, h.2.1 (by decide), (h.2.2.1).mp rfl⟩

/-- C5: creating a task whose kind has no registered executor fails with the
registry's not-found error and leaves the manager state (store and event log)
exactly unchanged; on a registered kind the returned task is the freshly
constructed `pending` task, which is stored under its ID. -/
theorem createTask_unregistered_rejected_registered_stored
    (reg : ExecutorRegistry ExecKind) (pub : Publisher) (s : MState)
    (kind : String) (input : ValMap) (isAsync : Bool) (now : ℕ) :
    (ExecutorRegistry.find reg kind = none →
      CreateTask reg pub s kind input isAsync now =
        (.error ("no executor found for task type: " ++ kind), s)) ∧
    (∀ e, ExecutorRegistry.find reg kind = some e →
      (CreateTask reg pub s kind input isAsync now).1 =
        .ok (NewTask s.nextId kind input isAsync now) ∧
      (NewTask s.nextId kind input isAsync now).status = .pending ∧
      lookupTask (CreateTask reg pub s kind input isAsync now).2.tasks s.nextId =
        some (NewTask s.nextId kind input isAsync now)) := by
  constructor
  · intro h
    simp [CreateTask, ExecutorRegistry.getExecutor, h]
  · intro e he
    refine ⟨?_, rfl, ?_⟩
    · simp [CreateTask, ExecutorRegistry.getExecutor, he]
    · simp only [CreateTask, ExecutorRegistry.getExecutor, he, publishEvent]
      exact lookup_setTask_self s.tasks s.nextId _

/-- Witness for C5: the default registry rejects kind `invalid` untouched and
stores an `echo` task as pending. -/
theorem createTask_unregistered_rejected_registered_stored_witness :
    CreateTask defaultRegistry (fun _ => true) initState "invalid" [] false 0 =
      (.error ("no executor found for task type: " ++ "invalid"), initState) ∧
    (CreateTask defaultRegistry (fun _ => true) initState "echo" [] false 0).1 =
      .ok (NewTask 0 "echo" [] false 0) ∧
    (NewTask 0 "echo" [] false 0).status = .pending :=
  have h1 := createTask_unregistered_rejected_registered_stored defaultRegistry
    (fun _ => true) initState "invalid" [] false 0
  have h2 := createTask_unregistered_rejected_registered_stored defaultRegistry
    (fun _ => true) initState "echo" [] false 0
  ⟨h1.1 rfl, (h2.2 .echo rfl).1, (h2.2 .echo rfl).2.1⟩

/-- C6: on a task whose status is terminal, `ExecuteTask`, `ExecuteTaskAsync`
and `CancelTask` each fail with the already-finished error and leave the whole
manager state — in particular that task's record — unchanged. -/
theorem terminal_task_operations_rejected (reg : ExecutorRegistry ExecKind)
    (pub : Publisher) (s : MState) (taskID : ℕ) (t : Task) (c : Bool)
    (tS tE now : ℕ) (hL : lookupTask s.tasks taskID = some t)
    (hF : t.isFinished = true) :
    ExecuteTask reg pub s taskID c tS tE = (.error (alreadyFinishedMsg taskID), s) ∧
    ExecuteTaskAsync reg pub s taskID tS tE = (.error (alreadyFinishedMsg taskID), s) ∧
    CancelTask pub s taskID now = (.error (alreadyFinishedMsg taskID), s) := by
  refine ⟨?_, ?_, ?_⟩ <;>
    simp [ExecuteTask, ExecuteTaskAsync, CancelTask, GetTask, hL, hF]

/-- Witness for C6 on a store holding one completed task. -/
theorem terminal_task_operations_rejected_witness :
    ExecuteTask defaultRegistry (fun _ => true)
        ⟨[(0, { id := 0, taskType := "echo", status := .completed, input := [],
                output := some [], error := "", createdAt := 0,
                startedAt := some 1, completedAt := some 2, duration := some 1,
                isAsync := false })], 1, []⟩ 0 false 3 4 =
      (.error (alreadyFinishedMsg 0),
       ⟨[(0, { id := 0, taskType := "echo", status := .completed, input := [],
               output := some [], error := "", createdAt := 0,
               startedAt := some 1, completedAt := some 2, duration := some 1,
               isAsync := false })], 1, []⟩) ∧
    CancelTask (fun _ => true)
        ⟨[(0, { id := 0, taskType := "echo", status := .completed, input := [],
                output := some [], error := "", createdAt := 0,
                startedAt := some 1, completedAt := some 2, duration := some 1,
                isAsync := false })], 1, []⟩ 0 5 =
      (.error (alreadyFinishedMsg 0),
       ⟨[(0, { id := 0, taskType := "echo", status := .completed, input := [],
               output := some [], error := "", createdAt := 0,
               startedAt := some 1, completedAt := some 2, duration := some 1,
               isAsync := false })], 1, []⟩) :=
  have h := terminal_task_operations_rejected defaultRegistry (fun _ => true)
    ⟨[(0, { id := 0, taskType := "echo", status := .completed, input := [],
            output := some [], error := "", createdAt := 0,
            startedAt := some 1, completedAt := some 2, duration := some 1,
            isAsync := false })], 1, []⟩ 0
    { id := 0, taskType := "echo", status := .completed, input := [],
      output := some [], error := "", createdAt := 0,
      startedAt := some 1, completedAt := some 2, duration := some 1,
      isAsync := false } false 3 4 5 rfl rfl
  ⟨h.1, h.2.2⟩

/-- Helper for C8: one execution sequence computes the same verdict and state
whatever the publisher reports, because every publish verdict is dropped. -/
theorem executeTaskInternal_publisher_irrelevant (reg : ExecutorRegistry ExecKind)
    (pub pub' : Publisher) (s : MState) (t : Task) (c : Bool) (tS tE : ℕ) :
    executeTaskInternal reg pub s t c tS tE =
      executeTaskInternal reg pub' s t c tS tE := by
  unfold executeTaskInternal
  cases hE : ExecutorRegistry.getExecutor reg t.taskType with
  | error e => simp [publishEvent]
  | ok ex =>
    cases hR : runExecutor ex c t.input with
    | error msg => simp [hR, publishEvent]
    | ok out => simp [hR, publishEvent]

/-- C8: no manager operation's outcome — returned value, task store, or the
sequence of events handed to the sink — depends on the publisher, so a
publisher whose publish always fails changes nothing: the failure is never
propagated and never rolls back a transition; in particular `CreateTask` on a
registered kind still returns the fresh pending task and stores it, for every
publisher. -/
theorem publish_failure_never_propagated (reg : ExecutorRegistry ExecKind)
    (pub pub' : Publisher) (s : MState) (kind : String) (input : ValMap)
    (isAsync : Bool) (now : ℕ) (taskID : ℕ) (c : Bool) (tS tE cnow : ℕ) :
    CreateTask reg pub s kind input isAsync now =
      CreateTask reg pub' s kind input isAsync now ∧
    ExecuteTask reg pub s taskID c tS tE = ExecuteTask reg pub' s taskID c tS tE ∧
    ExecuteTaskAsync reg pub s taskID tS tE =
      ExecuteTaskAsync reg pub' s taskID tS tE ∧
    CancelTask pub s taskID cnow = CancelTask pub' s taskID cnow ∧
    (∀ e, ExecutorRegistry.find reg kind = some e →
      (CreateTask reg pub s kind input isAsync now).1 =
        .ok (NewTask s.nextId kind input isAsync now) ∧
      lookupTask (CreateTask reg pub s kind input isAsync now).2.tasks s.nextId =
        some (NewTask s.nextId kind input isAsync now)) := by
  refine ⟨?_, ?_, ?_, ?_, ?_⟩
  · cases hE : ExecutorRegistry.getExecutor reg kind with
    | error e => simp [CreateTask, hE]
    | ok e0 => simp [CreateTask, hE, publishEvent]
  · cases hL : lookupTask s.tasks taskID with
    | none => simp [ExecuteTask, GetTask, hL]
    | some t =>
      cases hFt : t.isFinished with
      | true => simp [ExecuteTask, GetTask, hL, hFt]
      | false =>
        simp [ExecuteTask, GetTask, hL, hFt,
          executeTaskInternal_publisher_irrelevant reg pub pub' s t c tS tE]
  · cases hL : lookupTask s.tasks taskID with
    | none => simp [ExecuteTaskAsync, GetTask, hL]
    | some t =>
      cases hFt : t.isFinished with
      | true => simp [ExecuteTaskAsync, GetTask, hL, hFt]
      | false =>
        simp [ExecuteTaskAsync, GetTask, hL, hFt,
          executeTaskInternal_publisher_irrelevant reg pub pub' s t false tS tE]
  · cases hL : lookupTask s.tasks taskID with
    | none => simp [CancelTask, GetTask, hL]
    | some t =>
      cases hFt : t.isFinished with
      | true => simp [CancelTask, GetTask, hL, hFt]
      | false => simp [CancelTask, GetTask, hL, hFt, publishEvent]
  · intro e he
    constructor
    · simp [CreateTask, ExecutorRegistry.getExecutor, he]
    · simp only [CreateTask, ExecutorRegistry.getExecutor, he, publishEvent]
      exact lookup_setTask_self s.tasks s.nextId _

/-- Witness for C8 with an always-failing publisher against an always-succeeding
one. -/
theorem publish_failure_never_propagated_witness :
    CreateTask defaultRegistry (fun _ => false) initState "echo" [] false 0 =
      CreateTask defaultRegistry (fun _ => true) initState "echo" [] false 0 ∧
    (CreateTask defaultRegistry (fun _ => false) initState "echo" [] false 0).1 =
      .ok (NewTask 0 "echo" [] false 0) :=
  have h := publish_failure_never_propagated defaultRegistry (fun _ => false)
    (fun _ => true) initState "echo" [] false 0 0 false 0 0 0
  ⟨h.1, (h.2.2.2.2 .echo rfl).1⟩

/-- An optional value holding a Go string (`.(string)` type assertion holds). -/
def isStrVal (o : Option Value) : Prop := ∃ s, o = some (Value.str s)

/-- An optional value holding a Go `float64` (`.(float64)` assertion holds). -/
def isNumVal (o : Option Value) : Prop := ∃ q, o = some (Value.num q)

/-- C7: the math executor fails with the invalid-input messages when
`operation` is not a string or `a`/`b` is not a number; on valid inputs it
computes add, subtract, multiply and divide, fails with `division by zero`
when dividing by `b = 0`, fails with the unsupported-operation error on any
other operation string, and on success outputs `operation`, `a`, `b` and the
arithmetically correct `result`. -/
theorem math_executor_contract (c : Bool) (input : ValMap) :
    (∀ a b : ℚ, lookupVal input "operation" = some (Value.str "add") →
      lookupVal input "a" = some (Value.num a) →
      lookupVal input "b" = some (Value.num b) →
      MathExecutor.execute c input =
        .ok [("operation", Value.str "add"), ("a", Value.num a),
             ("b", Value.num b), ("result", Value.num (a + b))]) ∧
    (∀ a b : ℚ, lookupVal input "operation" = some (Value.str "subtract") →
      lookupVal input "a" = some (Value.num a) →
      lookupVal input "b" = some (Value.num b) →
      MathExecutor.execute c input =
        .ok [("operation", Value.str "subtract"), ("a", Value.num a),
             ("b", Value.num b), ("result", Value.num (a - b))]) ∧
    (∀ a b : ℚ, lookupVal input "operation" = some (Value.str "multiply") →
      lookupVal input "a" = some (Value.num a) →
      lookupVal input "b" = some (Value.num b) →
      MathExecutor.execute c input =
        .ok [("operation", Value.str "multiply"), ("a", Value.num a),
             ("b", Value.num b), ("result", Value.num (a * b))]) ∧
    (∀ a b : ℚ, lookupVal input "operation" = some (Value.str "divide") →
      lookupVal input "a" = some (Value.num a) →
      lookupVal input "b" = some (Value.num b) → b ≠ 0 →
      MathExecutor.execute c input =
        .ok [("operation", Value.str "divide"), ("a", Value.num a),
             ("b", Value.num b), ("result", Value.num (a / b))]) ∧
    (∀ a : ℚ, lookupVal input "operation" = some (Value.str "divide") →
      lookupVal input "a" = some (Value.num a) →
      lookupVal input "b" = some (Value.num 0) →
      MathExecutor.execute c input = .error "division by zero") ∧
    (∀ (op : String) (a b : ℚ),
      lookupVal input "operation" = some (Value.str op) →
      lookupVal input "a" = some (Value.num a) →
      lookupVal input "b" = some (Value.num b) →
      op ≠ "add" → op ≠ "subtract" → op ≠ "multiply" → op ≠ "divide" →
      MathExecutor.execute c input = .error ("unsupported operation: " ++ op)) ∧
    (¬isStrVal (lookupVal input "operation") →
      MathExecutor.execute c input = .error "operation must be a string") ∧
    (∀ op : String, lookupVal input "operation" = some (Value.str op) →
      ¬isNumVal (lookupVal input "a") →
      MathExecutor.execute c input = .error "a must be a number") ∧
    (∀ (op : String) (a : ℚ),
      lookupVal input "operation" = some (Value.str op) →
      lookupVal input "a" = some (Value.num a) →
      ¬isNumVal (lookupVal input "b") →
      MathExecutor.execute c input = .error "b must be a number") := by
  refine ⟨?_, ?_, ?_, ?_, ?_, ?_, ?_, ?_, ?_⟩
  · intro a b hop ha hb
    simp [MathExecutor.execute, hop, ha, hb]
  · intro a b hop ha hb
    simp [MathExecutor.execute, hop, ha, hb]
  · intro a b hop ha hb
    simp [MathExecutor.execute, hop, ha, hb]
  · intro a b hop ha hb hb0
    simp [MathExecutor.execute, hop, ha, hb, hb0]
  · intro a hop ha hb
    simp [MathExecutor.execute, hop, ha, hb]
  · intro op a b hop ha hb h1 h2 h3 h4
    simp [MathExecutor.execute, hop, ha, hb, h1, h2, h3, h4]
  · intro hop
    unfold MathExecutor.execute
    cases hv : lookupVal input "operation" with
    | none => rfl
    | some v =>
      cases v with
      | str s => exact absurd ⟨s, hv⟩ hop
      | num q => rfl
      | bool b => rfl
      | null => rfl
      | arr l => rfl
      | obj m => rfl
  · intro op hop ha
    unfold MathExecutor.execute
    rw [hop]
    cases hv : lookupVal input "a" with
    | none => rfl
    | some v =>
      cases v with
      | num q => exact absurd ⟨q, hv⟩ ha
      | str s => rfl
      | bool b => rfl
      | null => rfl
      | arr l => rfl
      | obj m => rfl
  · intro op a hop ha hb
    unfold MathExecutor.execute
    rw [hop, ha]
    cases hv : lookupVal input "b" with
    | none => rfl
    | some v =>
      cases v with
      | num q => exact absurd ⟨q, hv⟩ hb
      | str s => rfl
      | bool b => rfl
      | null => rfl
      | arr l => rfl
      | obj m => rfl

/-- Witness for C7: an addition, the division-by-zero scenario of §8, and a
missing-operand failure, all at concrete inputs. -/
theorem math_executor_contract_witness :
    MathExecutor.execute false
        [("operation", Value.str "add"), ("a", Value.num 2), ("b", Value.num 3)] =
      .ok [("operation", Value.str "add"), ("a", Value.num 2),
           ("b", Value.num 3), ("result", Value.num (2 + 3))] ∧
    MathExecutor.execute false
        [("operation", Value.str "divide"), ("a", Value.num 10), ("b", Value.num 0)] =
      .error "division by zero" ∧
    MathExecutor.execute false [("operation", Value.str "add"), ("b", Value.num 5)] =
      .error "a must be a number" :=
  have h1 := math_executor_contract false
    [("operation", Value.str "add"), ("a", Value.num 2), ("b", Value.num 3)]
  have h2 := math_executor_contract false
    [("operation", Value.str "divide"), ("a", Value.num 10), ("b", Value.num 0)]
  have h3 := math_executor_contract false
    [("operation", Value.str "add"), ("b", Value.num 5)]
  ⟨h1.1 2 3 rfl rfl rfl,
   h2.2.2.2.2.1 10 rfl rfl rfl,
   h3.2.2.2.2.2.2.2.1 "add" rfl (by rintro ⟨q, hq⟩; cases hq)⟩

/-- C2: at the failing input `duration = 0.1` the sleep executor validates the
input and reports `slept_for_seconds = 0.1`, but the wait it performs is
`time.Duration(0.1) * time.Second = 0` nanoseconds — the float is truncated to
an integer before being scaled to seconds — while the specified suspension is
`0.1 s = 10^8` nanoseconds; the executor's own test requires at least `10^8`
nanoseconds of elapsed time here.  (Absence of `duration` still fails with the
invalid-input message.) -/
theorem sleep_executor_truncates_fractional_duration :
    SleepExecutor.execute false [("duration", Value.num (mkRat 1 10))] =
      .ok [("slept_for_seconds", Value.num (mkRat 1 10)),
           ("message", Value.str "Sleep completed successfully")] ∧
    SleepExecutor.execute false [] = .error "duration must be a number" ∧
    sleepWaitNanos (mkRat 1 10) = 0 ∧
    specSleepNanos (mkRat 1 10) = 100000000 ∧
    ((sleepWaitNanos (mkRat 1 10) : ℚ) ≠ specSleepNanos (mkRat 1 10)) := by
  have hw : sleepWaitNanos (mkRat 1 10) = 0 := by decide
  have hs : specSleepNanos (mkRat 1 10) = 100000000 := by
    norm_num [specSleepNanos, mkRat]
  refine ⟨rfl, rfl, hw, hs, ?_⟩
  rw [hw, hs]
  norm_num

/-- C1 counterexample: the state-machine operation `Task.Cancel`, applied to a
task that is already in the terminal `completed` state, changes its status to
`cancelled` — a transition out of a terminal state. -/
theorem cancel_leaves_completed_terminal_state :
    (Task.complete (Task.start (NewTask 0 "echo" [] false 0) 1)
        (some [("result", Value.str "ok")]) 2).isFinished = true ∧
    (Task.cancel (Task.complete (Task.start (NewTask 0 "echo" [] false 0) 1)
        (some [("result", Value.str "ok")]) 2) 3).status ≠
      (Task.complete (Task.start (NewTask 0 "echo" [] false 0) 1)
        (some [("result", Value.str "ok")]) 2).status :=
  ⟨rfl, by decide⟩

/-- C1 amended: over every sequence of guarded manager operations
(`CreateTask`, `ExecuteTask`, `ExecuteTaskAsync`, `CancelTask`) run from the
initial manager state, a task whose status has reached a terminal state is
never touched again: its whole record — in particular its status — stays
intact through any further manager operations.  (The unguarded `Task` methods
themselves can overwrite a terminal status, per the counterexample.) -/
theorem manager_ops_never_leave_terminal (reg : ExecutorRegistry ExecKind)
    (pub : Publisher) (ops ops' : List Op) (k : ℕ) (tk : Task)
    (hL : lookupTask (run reg pub initState ops).tasks k = some tk)
    (hF : tk.isFinished = true) :
    lookupTask (run reg pub initState (ops ++ ops')).tasks k = some tk := by
  rw [run_append]
  exact run_frozen reg pub _ ops' k tk
    (run_storeWf reg pub initState ops initState_storeWf) hL hF

/-- Witness for C1 amended: a failed `error` task survives a later
`CancelTask` unchanged. -/
theorem manager_ops_never_leave_terminal_witness :
    lookupTask (run defaultRegistry (fun _ => true) initState
        ([.create "error" [] false 0, .exec 0 false 1 2] ++ [.cancel 0 3])).tasks 0 =
      some { id := 0, taskType := "error", status := .failed, input := [],
             output := none, error := "Task failed as requested", createdAt := 0,
             startedAt := some 1, completedAt := some 2, duration := some 1,
             isAsync := false } :=
  manager_ops_never_leave_terminal defaultRegistry (fun _ => true)
    [.create "error" [] false 0, .exec 0 false 1 2] [.cancel 0 3] 0
    { id := 0, taskType := "error", status := .failed, input := [],
      output := none, error := "Task failed as requested", createdAt := 0,
      startedAt := some 1, completedAt := some 2, duration := some 1,
      isAsync := false } rfl rfl

/-- C3 counterexample: the manager itself produces a failed task whose `error`
field is the empty string — i.e. absent under the record's zero-value/omitempty
convention — by executing an `error` task whose input carries
`message = ""`; so "failed implies error set" does not hold as stated. -/
theorem failed_task_with_error_absent :
    (lookupTask (run defaultRegistry (fun _ => true) initState
        [.create "error" [("message", Value.str "")] false 0,
         .exec 0 false 1 2]).tasks 0).map Task.status =
      some TaskStatus.failed ∧
    (lookupTask (run defaultRegistry (fun _ => true) initState
        [.create "error" [("message", Value.str "")] false 0,
         .exec 0 false 1 2]).tasks 0).map Task.error = some "" :=
  ⟨rfl, rfl⟩

/-- C3 amended: for every task record produced by sequences of manager
operations (with sane clock readings), completed implies output set and error
absent, failed implies output absent, and output and error are never both
present; a failed task's error is the executor's message, which is absent
(empty) exactly when the error executor is invoked with an empty `message`
string, as in the counterexample. -/
theorem manager_output_error_exclusive (reg : ExecutorRegistry ExecKind)
    (pub : Publisher) (ops : List Op) (hops : wfOps ops = true) (k : ℕ)
    (t : Task) (hL : lookupTask (run reg pub initState ops).tasks k = some t) :
    (t.status = .completed → t.output.isSome = true ∧ t.error = "") ∧
    (t.status = .failed → t.output = none) ∧
    ¬(t.output.isSome = true ∧ t.error ≠ "") := by
  have hsh : TaskShape t := run_shapeInv reg pub initState ops
    initState_shapeInv hops _ (lookupTask_mem _ _ _ hL)
  rcases hsh with ⟨h1, h2, h3, -⟩ | ⟨h1, h2, h3, -⟩ | ⟨h1, h2, -⟩ | ⟨h1, h2, h3, -⟩
  · refine ⟨fun hc => ?_, fun hf => h2, fun hcon => ?_⟩
    · rw [h1] at hc
      cases hc
    · rw [h2] at hcon
      simp at hcon
  · refine ⟨fun hc => ⟨h2, h3⟩, fun hf => ?_, fun hcon => hcon.2 h3⟩
    rw [h1] at hf
    cases hf
  · refine ⟨fun hc => ?_, fun hf => h2, fun hcon => ?_⟩
    · rw [h1] at hc
      cases hc
    · rw [h2] at hcon
      simp at hcon
  · refine ⟨fun hc => ?_, fun hf => ?_, fun hcon => ?_⟩
    · rw [h1] at hc
      cases hc
    · rw [h1] at hf
      cases hf
    · rw [h2] at hcon
      simp at hcon

/-- Witness for C3 amended: the record of an executed `echo` task has its
output set and its error absent. -/
theorem manager_output_error_exclusive_witness :
    ({ id := 0, taskType := "echo", status := .completed,
       input := [("m", Value.str "hi")],
       output := some [("echo", Value.obj [("m", Value.str "hi")]),
                       ("message", Value.str "Task executed successfully")],
       error := "", createdAt := 0, startedAt := some 1, completedAt := some 2,
       duration := some 1, isAsync := false } : Task).output.isSome = true ∧
    ({ id := 0, taskType := "echo", status := .completed,
       input := [("m", Value.str "hi")],
       output := some [("echo", Value.obj [("m", Value.str "hi")]),
                       ("message", Value.str "Task executed successfully")],
       error := "", createdAt := 0, startedAt := some 1, completedAt := some 2,
       duration := some 1, isAsync := false } : Task).error = "" :=
  (manager_output_error_exclusive defaultRegistry (fun _ => true)
    [.create "echo" [("m", Value.str "hi")] false 0, .exec 0 false 1 2] rfl 0
    { id := 0, taskType := "echo", status := .completed,
      input := [("m", Value.str "hi")],
      output := some [("echo", Value.obj [("m", Value.str "hi")]),
                      ("message", Value.str "Task executed successfully")],
      error := "", createdAt := 0, startedAt := some 1, completedAt := some 2,
      duration := some 1, isAsync := false } rfl).1 rfl

/-- C4: for every task produced by sequences of manager operations with sane
clock readings, the duration is present exactly when the task was started
(reached `running`) and is now terminal; when present it equals
`completed_at - started_at` and is never negative; and a cancelled task — only
ever a never-started one under the guarded operations — has `completed_at` set
but no duration and no `started_at`. -/
theorem duration_presence_and_value (reg : ExecutorRegistry ExecKind)
    (pub : Publisher) (ops : List Op) (hops : wfOps ops = true) (k : ℕ)
    (t : Task) (hL : lookupTask (run reg pub initState ops).tasks k = some t) :
    (t.duration.isSome = true ↔
      (t.startedAt.isSome = true ∧ t.isFinished = true)) ∧
    (∀ d : ℤ, t.duration = some d →
      0 ≤ d ∧ ∃ a b : ℕ, t.startedAt = some a ∧ t.completedAt = some b ∧
        d = (b : ℤ) - (a : ℤ)) ∧
    (t.status = .cancelled →
      t.completedAt.isSome = true ∧ t.duration = none ∧ t.startedAt = none) := by
  have hsh : TaskShape t := run_shapeInv reg pub initState ops
    initState_shapeInv hops _ (lookupTask_mem _ _ _ hL)
  rcases hsh with ⟨h1, h2, h3, h4, h5, h6⟩ |
    ⟨h1, h2, h3, a, b, hab, ha, hb, hd⟩ |
    ⟨h1, h2, a, b, hab, ha, hb, hd⟩ |
    ⟨h1, h2, h3, h4, ⟨b, hb⟩, h6⟩
  · refine ⟨?_, fun d hd => ?_, fun hc => ?_⟩
    · simp [h4, h6]
    · rw [h6] at hd
      cases hd
    · rw [h1] at hc
      cases hc
  · refine ⟨?_, fun d hdd => ?_, fun hc => ?_⟩
    · simp [ha, hd, Task.isFinished, h1]
    · rw [hd] at hdd
      cases hdd
      refine ⟨by simpa using Int.ofNat_le.mpr hab, a, b, ha, hb, rfl⟩
    · rw [h1] at hc
      cases hc
  · refine ⟨?_, fun d hdd => ?_, fun hc => ?_⟩
    · simp [ha, hd, Task.isFinished, h1]
    · rw [hd] at hdd
      cases hdd
      refine ⟨by simpa using Int.ofNat_le.mpr hab, a, b, ha, hb, rfl⟩
    · rw [h1] at hc
      cases hc
  · refine ⟨?_, fun d hdd => ?_, fun hc => ⟨by simp [hb], h6, h4⟩⟩
    · simp [h4, h6]
    · rw [h6] at hdd
      cases hdd

/-- Witness for C4: the record of a failed `error` task carries a
non-negative one-nanosecond duration equal to its timestamp difference. -/
theorem duration_presence_and_value_witness :
    0 ≤ (1 : ℤ) ∧ ∃ a b : ℕ,
      ({ id := 0, taskType := "error", status := .failed, input := [],
         output := none, error := "Task failed as requested", createdAt := 0,
         startedAt := some 5, completedAt := some 6, duration := some 1,
         isAsync := false } : Task).startedAt = some a ∧
      ({ id := 0, taskType := "error", status := .failed, input := [],
         output := none, error := "Task failed as requested", createdAt := 0,
         startedAt := some 5, completedAt := some 6, duration := some 1,
         isAsync := false } : Task).completedAt = some b ∧
      (1 : ℤ) = (b : ℤ) - (a : ℤ) :=
  (duration_presence_and_value defaultRegistry (fun _ => true)
    [.create "error" [] false 0, .exec 0 false 5 6] rfl 0
    { id := 0, taskType := "error", status := .failed, input := [],
      output := none, error := "Task failed as requested", createdAt := 0,
      startedAt := some 5, completedAt := some 6, duration := some 1,
      isAsync := false } rfl).2.1 1 rfl

/-! ## JSON serialization (`Task.ToJSON` / `FromJSON` in `models/task.go`)

The byte-level `json.Marshal`/`json.Unmarshal` round trip through the JSON
grammar is embedded at the level of the JSON value tree, for which the `Value`
type already serves: `Task.toJSON` produces the object tree `json.Marshal`
renders (struct-tag field names, `omitempty` fields dropped when nil or
empty), and `FromJSON` decodes an object tree back into a `Task`
(missing fields become zero values, mismatched field types are errors, and
non-object input is an error, as `json.Unmarshal` behaves).  Timestamps and
the ID token are rendered as their numeric values (Go renders RFC3339 strings
and the uuid string; the textual formats are abstracted), and a status string
outside the five constants is rejected where Go's string-typed `TaskStatus`
would accept it — none of which is observable in the round trip. -/

/-- Decoding of the five `TaskStatus` constants. -/
def statusOfGoString (s : String) : Except String TaskStatus :=
  if s = "pending" then .ok .pending
  else if s = "running" then .ok .running
  else if s = "completed" then .ok .completed
  else if s = "failed" then .ok .failed
  else if s = "cancelled" then .ok .cancelled
  else .error ("unknown status: " ++ s)

/-- Unmarshal a required numeric field: missing means the zero value. -/
def jsonFieldNat (fields : ValMap) (key : String) : Except String ℕ :=
  match lookupVal fields key with
  | some (Value.num q) => .ok q.num.toNat
  | none => .ok 0
  | some _ => .error ("cannot unmarshal field " ++ key)

/-- Unmarshal an optional (pointer) numeric field. -/
def jsonFieldNatOpt (fields : ValMap) (key : String) :
    Except String (Option ℕ) :=
  match lookupVal fields key with
  | some (Value.num q) => .ok (some q.num.toNat)
  | none => .ok none
  | some _ => .error ("cannot unmarshal field " ++ key)

/-- Unmarshal the optional `duration_ms` field (int64 nanoseconds). -/
def jsonFieldIntOpt (fields : ValMap) (key : String) :
    Except String (Option ℤ) :=
  match lookupVal fields key with
  | some (Value.num q) => .ok (some q.num)
  | none => .ok none
  | some _ => .error ("cannot unmarshal field " ++ key)

/-- Unmarshal a string field: missing means the empty string. -/
def jsonFieldStr (fields : ValMap) (key : String) : Except String String :=
  match lookupVal fields key with
  | some (Value.str s) => .ok s
  | none => .ok ""
  | some _ => .error ("cannot unmarshal field " ++ key)

/-- Unmarshal the non-pointer `input` map: missing or null means the nil map. -/
def jsonFieldObj (fields : ValMap) (key : String) : Except String ValMap :=
  match lookupVal fields key with
  | some (Value.obj m) => .ok m
  | some Value.null => .ok []
  | none => .ok []
  | some _ => .error ("cannot unmarshal field " ++ key)

/-- Unmarshal the nil-able `output` map. -/
def jsonFieldObjOpt (fields : ValMap) (key : String) :
    Except String (Option ValMap) :=
  match lookupVal fields key with
  | some (Value.obj m) => .ok (some m)
  | some Value.null => .ok none
  | none => .ok none
  | some _ => .error ("cannot unmarshal field " ++ key)

/-- Unmarshal a boolean field: missing means false. -/
def jsonFieldBool (fields : ValMap) (key : String) : Except String Bool :=
  match lookupVal fields key with
  | some (Value.bool b) => .ok b
  | none => .ok false
  | some _ => .error ("cannot unmarshal field " ++ key)

/-- `Task.ToJSON` / `json.Marshal`: the object tree with the struct-tag field
names in declaration order; `output` is dropped when nil or empty and the
pointer fields when nil (`omitempty`); `error` is dropped when empty. -/
def Task.toJSON (t : Task) : Value :=
  Value.obj
    ([("id", Value.num t.id), ("type", Value.str t.taskType),
      ("status", Value.str t.status.toGoString), ("input", Value.obj t.input)]
     ++ (match t.output with
         | some (x :: xs) => [("output", Value.obj (x :: xs))]
         | _ => [])
     ++ (if t.error = "" then [] else [("error", Value.str t.error)])
     ++ [("created_at", Value.num t.createdAt)]
     ++ (match t.startedAt with
         | some a => [("started_at", Value.num a)]
         | none => [])
     ++ (match t.completedAt with
         | some b => [("completed_at", Value.num b)]
         | none => [])
     ++ (match t.duration with
         | some d => [("duration_ms", Value.num d)]
         | none => [])
     ++ [("is_async", Value.bool t.isAsync)])

/-- `models.FromJSON` / `json.Unmarshal` into a `Task`. -/
def FromJSON (j : Value) : Except String Task :=
  match j with
  | Value.obj fields =>
    (jsonFieldNat fields "id").bind fun id =>
    (jsonFieldStr fields "type").bind fun ty =>
    (match lookupVal fields "status" with
     | some (Value.str s) => statusOfGoString s
     | _ => .error "cannot unmarshal field status").bind fun st =>
    (jsonFieldObj fields "input").bind fun input =>
    (jsonFieldObjOpt fields "output").bind fun output =>
    (jsonFieldStr fields "error").bind fun err =>
    (jsonFieldNat fields "created_at").bind fun created =>
    (jsonFieldNatOpt fields "started_at").bind fun started =>
    (jsonFieldNatOpt fields "completed_at").bind fun completedAt =>
    (jsonFieldIntOpt fields "duration_ms").bind fun dur =>
    (jsonFieldBool fields "is_async").bind fun isAsync =>
    .ok { id := id, taskType := ty, status := st, input := input,
          output := output, error := err, createdAt := created,
          startedAt := started, completedAt := completedAt, duration := dur,
          isAsync := isAsync }
  | _ => .error "invalid json"

set_option maxHeartbeats 1000000 in
/-- C10: marshalling any task to its JSON tree succeeds (every embeddable
input/output value is JSON-representable) and unmarshalling that tree back
succeeds and preserves the scalar fields `ID`, `Type`, `Status`, `Error` and
`IsAsync` exactly. -/
theorem task_json_roundtrip (t : Task) :
    (FromJSON (Task.toJSON t)).map
        (fun u => (u.id, u.taskType, u.status, u.error, u.isAsync)) =
      .ok (t.id, t.taskType, t.status, t.error, t.isAsync) := by
  obtain ⟨id, ty, st, input, output, err, created, started, completedAt,
    dur, isAsync⟩ := t
  cases st <;>
    rcases output with _ | l <;>
    (try rcases l with _ | ⟨x, xs⟩) <;>
    by_cases he : err = "" <;>
    rcases started with _ | a <;>
    rcases completedAt with _ | b <;>
    rcases dur with _ | d <;>
    simp +decide [Task.toJSON, FromJSON, lookupVal, statusOfGoString,
      TaskStatus.toGoString, jsonFieldNat, jsonFieldStr, jsonFieldObj,
      jsonFieldObjOpt, jsonFieldNatOpt, jsonFieldIntOpt, jsonFieldBool,
      Except.bind, Except.map, he]

end GoFred
